import Mathlib

/-!
Verification development for the song-play ETL job (etl.py).

The job reads song JSON records and event-log JSON records, builds four
dimension tables (songs, artists, users, time) and one fact table
(songplays), and writes each table to its own directory, some of them
partitioned.  We embed the dataframe pipeline shallowly: a dataframe is a
Lean list of records, `select`/`selectExpr` are maps, `distinct` is
`List.dedup`, `filter` is `List.filter`, the left join is an explicit
flat-map, and `monotonically_increasing_id` is sequential numbering.

Numeric JSON fields that are floating point in the original data
(duration, latitude, longitude, length) only ever flow through the
pipeline unchanged and are compared for nothing but row equality, so they
are modelled as integers; nullable fields are `Option`.

The two timestamp UDFs call `datetime.fromtimestamp(x/1000).strftime`,
and the engine functions `hour`, `dayofmonth`, `weekofyear`, `month`,
`year`, `dayofweek` then parse the formatted string back.  We model the
calendar with the standard civil-from-days algorithm (proleptic
Gregorian, one fixed time zone for both the UDFs and the engine, which is
the consistent-session assumption).  Integer division in the model is
Lean `Int` division `/` (Euclidean); every divisor below is a positive
literal, for which Euclidean and floor division agree, so this matches
the Python floor semantics of `//` and of `fromtimestamp` on negative
inputs.
-/

namespace ETL

/-- Calendar date-time at one-second precision, the value formatted by
`strftime` with pattern `%Y-%m-%d %H:%M:%S`. -/
structure DT where
  year : Int
  month : Int
  day : Int
  hour : Int
  minute : Int
  second : Int
deriving DecidableEq

/-- Days since 1970-01-01 to civil (year, month, day), proleptic Gregorian
(the classic era-based civil-from-days algorithm, as realised by the Python
`datetime` library that the UDFs call). -/
def civilFromDays (days : Int) : Int × Int × Int :=
  let z := days + 719468
  let era := z / 146097
  let doe := z - era * 146097
  let yoe := (doe - doe / 1460 + doe / 36524 - doe / 146096) / 365
  let y := yoe + era * 400
  let doy := doe - (365 * yoe + yoe / 4 - yoe / 100)
  let mp := (5 * doy + 2) / 153
  let d := doy - (153 * mp + 2) / 5 + 1
  let m := mp + (if mp < 10 then 3 else -9)
  (if m ≤ 2 then y + 1 else y, m, d)

/-- Civil (year, month, day) to days since 1970-01-01, inverse of
`civilFromDays`; used to model the day-of-week computation. -/
def daysFromCivil (y m d : Int) : Int :=
  let y2 := if m ≤ 2 then y - 1 else y
  let era := (if 0 ≤ y2 then y2 else y2 - 399) / 400
  let yoe := y2 - era * 400
  let mp := (if m ≤ 2 then m + 9 else m - 3)
  let doy := (153 * mp + 2) / 5 + d - 1
  let doe := yoe * 365 + yoe / 4 - yoe / 100 + doy
  era * 146097 + doe - 719468

/-- Epoch seconds to a calendar date-time (one fixed time zone). -/
def secondsToDT (secs : Int) : DT :=
  let days := secs / 86400
  let sod := secs % 86400
  let c := civilFromDays days
  ⟨c.1, c.2.1, c.2.2, sod / 3600, sod / 60 % 60, sod % 60⟩

/-- Two-digit zero-padded decimal rendering, as `strftime` uses for
month, day, hour, minute and second. -/
def pad2 (n : Int) : List Char :=
  [Nat.digitChar (n.toNat / 10 % 10), Nat.digitChar (n.toNat % 10)]

/-- Four-digit zero-padded decimal rendering, as `strftime` `%Y` uses for
years up to 9999 (the whole `datetime` range). -/
def pad4 (n : Int) : List Char :=
  [Nat.digitChar (n.toNat / 1000 % 10), Nat.digitChar (n.toNat / 100 % 10),
   Nat.digitChar (n.toNat / 10 % 10), Nat.digitChar (n.toNat % 10)]

/-- The `%Y-%m-%d` rendering of a date-time. -/
def formatDate (dt : DT) : String :=
  ⟨pad4 dt.year ++ '-' :: pad2 dt.month ++ '-' :: pad2 dt.day⟩

/-- The `%H:%M:%S` rendering of a date-time. -/
def timeOfDayChars (dt : DT) : List Char :=
  pad2 dt.hour ++ ':' :: pad2 dt.minute ++ ':' :: pad2 dt.second

/-- The `%Y-%m-%d %H:%M:%S` rendering of a date-time. -/
def formatTS (dt : DT) : String :=
  ⟨(formatDate dt).data ++ ' ' :: timeOfDayChars dt⟩

/-- The UDF at etl.py line 126: epoch milliseconds to the full
`%Y-%m-%d %H:%M:%S` string. -/
def get_timestamp (ts : Int) : String :=
  formatTS (secondsToDT (ts / 1000))

/-- The UDF at etl.py line 131: epoch milliseconds to the date-only
`%Y-%m-%d` string.  It is defined in the source and never applied. -/
def get_datetime (ts : Int) : String :=
  formatDate (secondsToDT (ts / 1000))

/-- Decimal value of a digit character. -/
def digVal (c : Char) : Int :=
  (c.toNat - 48 : Nat)

/-- Recognises a decimal digit character. -/
def isDig (c : Char) : Bool :=
  48 ≤ c.toNat && c.toNat ≤ 57

/-- Engine-side parsing of a `yyyy-MM-dd HH:mm:ss` timestamp string, the
cast Spark performs before `hour`, `month`, `year` and friends extract a
field; unparseable strings give `none` (SQL null). -/
def parseTS (str : String) : Option DT :=
  match str.data with
  | [y1, y2, y3, y4, a1, n1, n2, a2, d1, d2, a3, h1, h2, a4, u1, u2, a5, e1, e2] =>
    if a1 == '-' && a2 == '-' && a3 == ' ' && a4 == ':' && a5 == ':' &&
       ([y1, y2, y3, y4, n1, n2, d1, d2, h1, h2, u1, u2, e1, e2].all isDig) then
      some ⟨digVal y1 * 1000 + digVal y2 * 100 + digVal y3 * 10 + digVal y4,
            digVal n1 * 10 + digVal n2, digVal d1 * 10 + digVal d2,
            digVal h1 * 10 + digVal h2, digVal u1 * 10 + digVal u2,
            digVal e1 * 10 + digVal e2⟩
    else none
  | _ => none

theorem digVal_digitChar : ∀ k, k < 10 → digVal (Nat.digitChar k) = k := by decide

theorem isDig_digitChar : ∀ k, k < 10 → isDig (Nat.digitChar k) = true := by decide

/-- Round trip: parsing the formatted rendering of an in-range date-time
recovers it exactly. -/
theorem parseTS_formatTS (dt : DT)
    (hy1 : 0 ≤ dt.year) (hy2 : dt.year < 10000)
    (hm1 : 0 ≤ dt.month) (hm2 : dt.month < 100)
    (hd1 : 0 ≤ dt.day) (hd2 : dt.day < 100)
    (hh1 : 0 ≤ dt.hour) (hh2 : dt.hour < 100)
    (hu1 : 0 ≤ dt.minute) (hu2 : dt.minute < 100)
    (he1 : 0 ≤ dt.second) (he2 : dt.second < 100) :
    parseTS (formatTS dt) = some dt := by
  obtain ⟨y, m, d, h, u, e⟩ := dt
  simp only at hy1 hy2 hm1 hm2 hd1 hd2 hh1 hh2 hu1 hu2 he1 he2
  have hsimp : ∀ n : Int, 0 ≤ n → n < 100 →
      digVal (Nat.digitChar (n.toNat / 10 % 10)) * 10 + digVal (Nat.digitChar (n.toNat % 10)) = n := by
    intro n h0 h100
    rw [digVal_digitChar _ (by omega), digVal_digitChar _ (by omega)]
    omega
  have hsimp4 : ∀ n : Int, 0 ≤ n → n < 10000 →
      digVal (Nat.digitChar (n.toNat / 1000 % 10)) * 1000 +
        digVal (Nat.digitChar (n.toNat / 100 % 10)) * 100 +
        digVal (Nat.digitChar (n.toNat / 10 % 10)) * 10 +
        digVal (Nat.digitChar (n.toNat % 10)) = n := by
    intro n h0 h10000
    rw [digVal_digitChar _ (by omega), digVal_digitChar _ (by omega),
      digVal_digitChar _ (by omega), digVal_digitChar _ (by omega)]
    omega
  have hdig : ∀ n : Nat, isDig (Nat.digitChar (n % 10)) = true := by
    intro n
    exact isDig_digitChar _ (Nat.mod_lt _ (by omega))
  simp only [parseTS, formatTS, formatDate, timeOfDayChars, pad4, pad2, List.cons_append,
    List.nil_append, List.all_cons, List.all_nil, hdig, Bool.and_true, Bool.and_self,
    beq_self_eq_true, Bool.true_and, if_true]
  simp only [Option.some.injEq, DT.mk.injEq]
  exact ⟨hsimp4 y hy1 hy2, hsimp m hm1 hm2, hsimp d hd1 hd2,
    hsimp h hh1 hh2, hsimp u hu1 hu2, hsimp e he1 he2⟩

/-- Gregorian leap-year test. -/
def isLeap (y : Int) : Bool :=
  (y % 4 == 0 && y % 100 != 0) || y % 400 == 0

/-- Cumulative days before the first of a month (month 1 to 12). -/
def daysBeforeMonth (leap : Bool) (m : Int) : Int :=
  (if m ≤ 1 then 0 else if m = 2 then 31 else if m = 3 then 59 else if m = 4 then 90
   else if m = 5 then 120 else if m = 6 then 151 else if m = 7 then 181
   else if m = 8 then 212 else if m = 9 then 243 else if m = 10 then 273
   else if m = 11 then 304 else 334) + (if leap && decide (3 ≤ m) then 1 else 0)

/-- Ordinal day of the year, 1 to 366. -/
def dayOfYear (y m d : Int) : Int :=
  daysBeforeMonth (isLeap y) m + d

/-- ISO weekday, Monday = 1 to Sunday = 7 (1970-01-01 was a Thursday). -/
def isoWeekday (y m d : Int) : Int :=
  (daysFromCivil y m d + 3) % 7 + 1

/-- Number of ISO weeks in a year: 53 when the year starts or ends on a
Thursday, else 52. -/
def isoWeeksInYear (y : Int) : Int :=
  if isoWeekday y 1 1 = 4 ∨ isoWeekday y 12 31 = 4 then 53 else 52

/-- ISO 8601 week-of-year number, the semantics of the engine function
`weekofyear`. -/
def weekOfYear (y m d : Int) : Int :=
  let w := (dayOfYear y m d - isoWeekday y m d + 10) / 7
  if w < 1 then isoWeeksInYear (y - 1)
  else if isoWeeksInYear y < w then 1
  else w

/-- Day of week in the convention of the engine function `dayofweek`,
Sunday = 1 to Saturday = 7. -/
def dayOfWeekSun (y m d : Int) : Int :=
  (daysFromCivil y m d + 4) % 7 + 1

/-- Engine function `hour` on a string column: cast to timestamp (null when
unparseable), then extract the hour. -/
def sparkHour (s : String) : Option Int :=
  (parseTS s).map DT.hour

/-- Engine function `dayofmonth` on a string column. -/
def sparkDayofmonth (s : String) : Option Int :=
  (parseTS s).map DT.day

/-- Engine function `weekofyear` on a string column. -/
def sparkWeekofyear (s : String) : Option Int :=
  (parseTS s).map (fun dt => weekOfYear dt.year dt.month dt.day)

/-- Engine function `month` on a string column. -/
def sparkMonth (s : String) : Option Int :=
  (parseTS s).map DT.month

/-- Engine function `year` on a string column. -/
def sparkYear (s : String) : Option Int :=
  (parseTS s).map DT.year

/-- Engine function `dayofweek` on a string column. -/
def sparkDayofweek (s : String) : Option Int :=
  (parseTS s).map (fun dt => dayOfWeekSun dt.year dt.month dt.day)

/-- One record of the song JSON dataset (floating-point duration and
coordinates modelled as integers, nullable coordinates as `Option`). -/
structure SongRecord where
  num_songs : Int
  artist_id : String
  artist_latitude : Option Int
  artist_longitude : Option Int
  artist_location : String
  artist_name : String
  song_id : String
  title : String
  duration : Int
  year : Int
deriving DecidableEq

/-- One record of the event-log JSON dataset.  The artist, song, length and
registration fields are null on non-listening events, hence `Option`. -/
structure LogRecord where
  artist : Option String
  auth : String
  firstName : String
  gender : String
  itemInSession : Int
  lastName : String
  length : Option Int
  level : String
  location : String
  method : String
  page : String
  registration : Option Int
  sessionId : Int
  song : Option String
  status : Int
  ts : Int
  userAgent : String
  userId : String
deriving DecidableEq

/-- Row of the songs dimension table (etl.py line 76). -/
structure SongRow where
  song_id : String
  title : String
  artist_id : String
  year : Int
  duration : Int
deriving DecidableEq

/-- Row of the artists dimension table (etl.py line 82). -/
structure ArtistRow where
  artist_id : String
  name : String
  location : String
  latitude : Option Int
  longitude : Option Int
deriving DecidableEq

/-- Row of the users dimension table (etl.py line 120). -/
structure UserRow where
  user_id : String
  first_name : String
  last_name : String
  gender : String
  level : String
deriving DecidableEq

/-- Row of the time dimension table (etl.py line 143).  The derived fields
are nullable because the engine extractors return null on a failed cast. -/
structure TimeRow where
  start_time : String
  hour : Option Int
  day : Option Int
  week : Option Int
  month : Option Int
  year : Option Int
  weekday : Option Int
deriving DecidableEq

/-- Row of the songplays fact table (etl.py lines 153 to 157). -/
structure SongplayRow where
  songplay_id : Int
  start_time : String
  user_id : String
  level : String
  song_id : Option String
  artist_id : Option String
  session_id : Int
  location : String
  user_agent : String
  year : Option Int
  month : Option Int
deriving DecidableEq

/-- Projection `df.select(SONG_ATTRIBUTES)` of etl.py line 76. -/
def songRowOf (r : SongRecord) : SongRow :=
  ⟨r.song_id, r.title, r.artist_id, r.year, r.duration⟩

/-- Projection `df.selectExpr(ARTIST_ATTRIBUTES)` of etl.py line 82. -/
def artistRowOf (r : SongRecord) : ArtistRow :=
  ⟨r.artist_id, r.artist_name, r.artist_location, r.artist_latitude, r.artist_longitude⟩

/-- Projection `df.selectExpr(USER_ATTRIBUTES)` of etl.py line 120 (the
engine resolves the attribute name UserId to the userId column
case-insensitively). -/
def userRowOf (r : LogRecord) : UserRow :=
  ⟨r.userId, r.firstName, r.lastName, r.gender, r.level⟩

/-- The log dataframe after the `withColumn` chain of etl.py lines 128 to
141: the original record plus the derived timestamp, start_time and time
field columns.  Line 133 applies `get_timestamp` (not `get_datetime`) to
ts, so start_time equals the timestamp column. -/
structure LogRowExt where
  base : LogRecord
  timestamp : String
  start_time : String
  hour : Option Int
  day : Option Int
  week : Option Int
  month : Option Int
  year : Option Int
  weekday : Option Int
deriving DecidableEq

/-- The `withColumn` chain of etl.py lines 128 to 141 on one log record. -/
def extendLog (r : LogRecord) : LogRowExt :=
  let tstr := get_timestamp r.ts
  { base := r
    timestamp := tstr
    start_time := get_timestamp r.ts
    hour := sparkHour tstr
    day := sparkDayofmonth tstr
    week := sparkWeekofyear tstr
    month := sparkMonth tstr
    year := sparkYear tstr
    weekday := sparkDayofweek tstr }

/-- The filter `df.page == NextSong` of etl.py line 117. -/
def nextSongOnly (logData : List LogRecord) : List LogRecord :=
  logData.filter (fun r => r.page == "NextSong")

/-- The songs table of etl.py line 76: select then distinct. -/
def songs_table (songData : List SongRecord) : List SongRow :=
  (songData.map songRowOf).dedup

/-- The artists table of etl.py line 82: selectExpr then distinct. -/
def artists_table (songData : List SongRecord) : List ArtistRow :=
  (songData.map artistRowOf).dedup

/-- The users table of etl.py line 120: filter, selectExpr, distinct. -/
def users_table (logData : List LogRecord) : List UserRow :=
  ((nextSongOnly logData).map userRowOf).dedup

/-- Projection of the extended log row onto the time table columns
(etl.py line 143). -/
def timeRowOf (l : LogRowExt) : TimeRow :=
  ⟨l.start_time, l.hour, l.day, l.week, l.month, l.year, l.weekday⟩

/-- The time table of etl.py line 143: filter, derive, select, distinct. -/
def time_table (logData : List LogRecord) : List TimeRow :=
  (((nextSongOnly logData).map extendLog).map timeRowOf).dedup

/-- Song records whose artist_name equals the artist column of the log row
(null artist matches nothing), the join predicate of etl.py line 153. -/
def matchingSongs (l : LogRowExt) (songDf : List SongRecord) : List SongRecord :=
  songDf.filter (fun s => l.base.artist == some s.artist_name)

/-- Left outer join contribution of one log row (etl.py line 153): one row
per matching song record, or a single row with null song side when there
is no match. -/
def leftJoinRows (l : LogRowExt) (songDf : List SongRecord) : List (LogRowExt × Option SongRecord) :=
  if matchingSongs l songDf = [] then [(l, none)]
  else (matchingSongs l songDf).map (fun s => (l, some s))

/-- The selectExpr plus `withColumn` steps of etl.py lines 154 to 157 on
one joined pair, given the surrogate id the id generator assigns. -/
def songplayRowOf (id : Int) (p : LogRowExt × Option SongRecord) : SongplayRow :=
  { songplay_id := id
    start_time := p.1.start_time
    user_id := p.1.base.userId
    level := p.1.base.level
    song_id := p.2.map SongRecord.song_id
    artist_id := p.2.map SongRecord.artist_id
    session_id := p.1.base.sessionId
    location := p.1.base.location
    user_agent := p.1.base.userAgent
    year := sparkYear p.1.start_time
    month := sparkMonth p.1.start_time }

/-- Sequential surrogate ids, the single-partition semantics of
`monotonically_increasing_id` (etl.py line 155). -/
def numberRows : Int → List (LogRowExt × Option SongRecord) → List SongplayRow
  | _, [] => []
  | n, p :: ps => songplayRowOf n p :: numberRows (n + 1) ps

/-- The songplays fact table of etl.py lines 153 to 157. -/
def songplays_table (logData : List LogRecord) (songDf : List SongRecord) : List SongplayRow :=
  numberRows 0 (((nextSongOnly logData).map extendLog).flatMap (fun l => leftJoinRows l songDf))

/-- Selection attributes for songs_table (etl.py line 16). -/
def SONG_ATTRIBUTES : List String :=
  ["song_id", "title", "artist_id", "year", "duration"]

/-- SQL style artist attribute expressions (etl.py line 19). -/
def ARTIST_ATTRIBUTES : List String :=
  ["artist_id", "artist_name as name", "artist_location as location",
   "artist_latitude as latitude", "artist_longitude as longitude"]

/-- SQL style user attribute expressions (etl.py line 23). -/
def USER_ATTRIBUTES : List String :=
  ["UserId as user_id", "firstName as first_name",
   "lastName as last_name", "gender", "level"]

/-- SQL style songplays attribute expressions (etl.py line 27). -/
def SONGPLAYS_ATTRIBUTES : List String :=
  ["start_time", "userId as user_id", "level", "song_id", "artist_id",
   "sessionId as session_id", "location", "userAgent as user_agent"]

/-- Splits a character list into space-separated words. -/
def splitWords : List Char → List Char → List (List Char)
  | [], acc => [acc.reverse]
  | c :: rest, acc =>
    if c = ' ' then acc.reverse :: splitWords rest []
    else splitWords rest (c :: acc)

/-- Output column name of a selectExpr attribute: the alias when the
expression has the shape `col as alias`, otherwise the expression itself. -/
def aliasTarget (expr : String) : String :=
  match splitWords expr.data [] with
  | [_, w, a] => if w = ['a', 's'] then ⟨a⟩ else expr
  | _ => expr

/-- Schema of a `selectExpr` call: one output column per attribute. -/
def selectExprColumns (attrs : List String) : List String :=
  attrs.map aliasTarget

/-- Schema effect of `withColumn`: replaces the column when present,
otherwise appends it. -/
def withColumnSchema (cols : List String) (c : String) : List String :=
  if c ∈ cols then cols else cols ++ [c]

/-- Columns of the songs table (etl.py line 76, plain select). -/
def songsColumns : List String :=
  SONG_ATTRIBUTES

/-- Columns of the artists table (etl.py line 82). -/
def artistsColumns : List String :=
  selectExprColumns ARTIST_ATTRIBUTES

/-- Columns of the users table (etl.py line 120). -/
def usersColumns : List String :=
  selectExprColumns USER_ATTRIBUTES

/-- Columns of the time table (etl.py line 143). -/
def timeColumns : List String :=
  ["start_time", "hour", "day", "week", "month", "year", "weekday"]

/-- Columns of the songplays table: the selectExpr columns of etl.py line
154 plus the three columns added on lines 155 to 157. -/
def songplaysColumns : List String :=
  withColumnSchema (withColumnSchema (withColumnSchema
    (selectExprColumns SONGPLAYS_ATTRIBUTES) ("songplay_id")) ("year")) ("month")

/-- One parquet write call: target directory and partition columns. -/
structure WriteCall where
  path : String
  partitionBy : List String
deriving DecidableEq

/-- The write calls issued by process_song_data (etl.py lines 79 and 85),
in program order. -/
def process_song_data_writes (output_data : String) : List WriteCall :=
  [⟨output_data ++ "songs/", ["year", "artist_id"]⟩,
   ⟨output_data ++ "artists/", []⟩]

/-- The write calls issued by process_log_data (etl.py lines 123, 146 and
160), in program order. -/
def process_log_data_writes (output_data : String) : List WriteCall :=
  [⟨output_data ++ "users/", []⟩,
   ⟨output_data ++ "time/", ["year", "month"]⟩,
   ⟨output_data ++ "songplays/", ["year", "month"]⟩]

/-- All write calls of one run of main, in program order. -/
def main_writes (output_data : String) : List WriteCall :=
  process_song_data_writes output_data ++ process_log_data_writes output_data

/-- The externally fallible operations of the job, one constructor per
read or write site, in the order the source executes them. -/
inductive Step where
  | readSongData
  | writeSongsTable
  | writeArtistsTable
  | readLogData
  | writeUsersTable
  | writeTimeTable
  | readSongDataForJoin
  | writeSongplaysTable
deriving DecidableEq

/-- Fallible operations of process_song_data, in program order (etl.py
lines 73, 79, 85). -/
def process_song_data_steps : List Step :=
  [Step.readSongData, Step.writeSongsTable, Step.writeArtistsTable]

/-- Fallible operations of process_log_data, in program order (etl.py
lines 114, 123, 146, 150, 160). -/
def process_log_data_steps : List Step :=
  [Step.readLogData, Step.writeUsersTable, Step.writeTimeTable,
   Step.readSongDataForJoin, Step.writeSongplaysTable]

/-- Fallible operations of main, in program order (etl.py lines 185 and
186). -/
def main_steps : List Step :=
  process_song_data_steps ++ process_log_data_steps

/-- Runs a straight-line sequence of fallible steps with no handler: the
first failing step aborts the run and its error is returned unchanged;
the second component is the trace of steps actually executed.  This is
the error-flow model of the source, which contains no try, except,
retry or recovery construct. -/
def runSteps (outcome : Step → Except String Unit) : List Step → Except String Unit × List Step
  | [] => (Except.ok (), [])
  | s :: rest =>
    match outcome s with
    | Except.error e => (Except.error e, [s])
    | Except.ok _ => ((runSteps outcome rest).1, s :: (runSteps outcome rest).2)

/-- Sample song record builder for concrete test inputs. -/
def mkSong (sid aid aname title : String) : SongRecord :=
  ⟨1, aid, none, none, "loc", aname, sid, title, 200, 2000⟩

/-- Sample log record builder for concrete test inputs. -/
def mkLog (artist : Option String) (page userId level : String) (ts : Int) : LogRecord :=
  ⟨artist, "Logged In", "F", "M", 0, "L", none, level, "home", "PUT", page,
   none, 1, none, 200, ts, "agent", userId⟩

/-- A NextSong event by user u1 at the free level. -/
def sampleNextSong : LogRecord :=
  mkLog (some ("Elena")) ("NextSong") ("u1") ("free") 1541121934796

/-- The same user and instant at the paid level. -/
def sampleNextSongPaid : LogRecord :=
  mkLog (some ("Elena")) ("NextSong") ("u1") ("paid") 1541121934796

/-- A log event on a page other than NextSong. -/
def sampleHome : LogRecord :=
  mkLog none ("Home") ("u2") ("free") 1541121934796

/-- A song record whose artist name matches `sampleNextSong`. -/
def sampleSongA1 : SongRecord :=
  mkSong ("s1") ("a1") ("Elena") ("t1")

/-- A second, distinct song record by the same artist name. -/
def sampleSongA2 : SongRecord :=
  mkSong ("s2") ("a2") ("Elena") ("t2")

/-- A record sharing song_id with `sampleSongA1` but differing in title. -/
def sampleSongA1Title : SongRecord :=
  mkSong ("s1") ("a1") ("Elena") ("t9")

/-- A record sharing artist_id with `sampleSongA1` but differing in
artist_location. -/
def sampleSongA1Loc : SongRecord :=
  ⟨1, "a1", none, none, "loc2", "Elena", "s1", "t1", 200, 2000⟩

/-- The list produced by `numberRows` has one output row per joined pair. -/
theorem length_numberRows (n : Int) (ps : List (LogRowExt × Option SongRecord)) :
    (numberRows n ps).length = ps.length := by
  induction ps generalizing n with
  | nil => rfl
  | cons p ps ih => simp [numberRows, ih]

/-- Every row of `numberRows` is the image of a member pair. -/
theorem mem_numberRows {row : SongplayRow} (n : Int)
    (ps : List (LogRowExt × Option SongRecord)) (h : row ∈ numberRows n ps) :
    ∃ k p, p ∈ ps ∧ row = songplayRowOf k p := by
  induction ps generalizing n with
  | nil => cases h
  | cons p ps ih =>
    simp only [numberRows, List.mem_cons] at h
    rcases h with h | h
    · exact ⟨n, p, by simp, h⟩
    · obtain ⟨k, q, hq, hrow⟩ := ih (n + 1) h
      exact ⟨k, q, by simp [hq], hrow⟩

/-- Every member pair contributes a row to `numberRows`. -/
theorem numberRows_mem {p : LogRowExt × Option SongRecord} (n : Int)
    (ps : List (LogRowExt × Option SongRecord)) (h : p ∈ ps) :
    ∃ k, songplayRowOf k p ∈ numberRows n ps := by
  induction ps generalizing n with
  | nil => cases h
  | cons q ps ih =>
    simp only [List.mem_cons] at h
    rcases h with h | h
    · exact ⟨n, by simp [numberRows, h]⟩
    · obtain ⟨k, hk⟩ := ih (n + 1) h
      exact ⟨k, by simp [numberRows, hk]⟩

/-- Surrogate ids assigned by `numberRows` are at least the start value. -/
theorem numberRows_ids_ge (n : Int) (ps : List (LogRowExt × Option SongRecord)) :
    ∀ x ∈ (numberRows n ps).map SongplayRow.songplay_id, n ≤ x := by
  induction ps generalizing n with
  | nil => intro x hx; cases hx
  | cons p ps ih =>
    intro x hx
    simp only [numberRows, List.map_cons, List.mem_cons] at hx
    rcases hx with hx | hx
    · simp [songplayRowOf] at hx
      omega
    · have := ih (n + 1) x (by simpa using hx)
      omega

/-- Surrogate ids assigned by `numberRows` are pairwise distinct. -/
theorem numberRows_ids_nodup (n : Int) (ps : List (LogRowExt × Option SongRecord)) :
    ((numberRows n ps).map SongplayRow.songplay_id).Nodup := by
  induction ps generalizing n with
  | nil => simp [numberRows]
  | cons p ps ih =>
    simp only [numberRows, List.map_cons, List.nodup_cons]
    refine ⟨fun hmem => ?_, ih (n + 1)⟩
    have := numberRows_ids_ge (n + 1) ps _ hmem
    simp [songplayRowOf] at this

/-- The left join emits one row for an unmatched log row and one per match
otherwise. -/
theorem leftJoinRows_length (l : LogRowExt) (songDf : List SongRecord) :
    (leftJoinRows l songDf).length = max 1 (matchingSongs l songDf).length := by
  unfold leftJoinRows
  by_cases h : matchingSongs l songDf = []
  · simp [h]
  · have hlen : 1 ≤ (matchingSongs l songDf).length := by
      cases hm : matchingSongs l songDf with
      | nil => exact absurd hm h
      | cons a as => simp
    simp only [if_neg h, List.length_map]
    omega

/-- Field bounds of the calendar conversion for epoch seconds between
1970-01-01 and 9999-12-31 inclusive. -/
theorem secondsToDT_bounds (s : Int) (h1 : 0 ≤ s) (h2 : s < 253402300800) :
    1969 ≤ (secondsToDT s).year ∧ (secondsToDT s).year ≤ 9999 ∧
    1 ≤ (secondsToDT s).month ∧ (secondsToDT s).month ≤ 12 ∧
    1 ≤ (secondsToDT s).day ∧ (secondsToDT s).day ≤ 31 ∧
    0 ≤ (secondsToDT s).hour ∧ (secondsToDT s).hour < 24 ∧
    0 ≤ (secondsToDT s).minute ∧ (secondsToDT s).minute < 60 ∧
    0 ≤ (secondsToDT s).second ∧ (secondsToDT s).second < 60 := by
  simp only [secondsToDT, civilFromDays]
  split <;> split <;> omega

/-- Appending to one fixed prefix is injective on strings. -/
theorem string_append_injective (a : String) :
    Function.Injective (fun b => a ++ b) := by
  intro b c hab
  have h2 : (a ++ b).data = (a ++ c).data := congrArg String.data hab
  simp only [String.data_append] at h2
  exact String.ext (List.append_cancel_left h2)

/-- The time row whose every field is derived from one timestamp string. -/
def timeRowFromString (s : String) : TimeRow :=
  ⟨s, sparkHour s, sparkDayofmonth s, sparkWeekofyear s, sparkMonth s,
   sparkYear s, sparkDayofweek s⟩

/-- The log side of every joined pair is the joined log row itself. -/
theorem mem_leftJoinRows_fst {p : LogRowExt × Option SongRecord} {l : LogRowExt}
    {songDf : List SongRecord} (h : p ∈ leftJoinRows l songDf) : p.1 = l := by
  unfold leftJoinRows at h
  by_cases hm : matchingSongs l songDf = []
  · rw [if_pos hm] at h
    simp only [List.mem_singleton] at h
    rw [h]
  · rw [if_neg hm] at h
    rw [List.mem_map] at h
    obtain ⟨s, _, hs⟩ := h
    rw [← hs]

/-- Every fact table row originates from one NextSong log row joined with
either nothing or one matching song record. -/
theorem mem_songplays_table {row : SongplayRow} (logData : List LogRecord)
    (songDf : List SongRecord) (h : row ∈ songplays_table logData songDf) :
    ∃ r ∈ nextSongOnly logData, ∃ k p, p ∈ leftJoinRows (extendLog r) songDf ∧
      row = songplayRowOf k p ∧ p.1 = extendLog r := by
  obtain ⟨k, p, hp, hrow⟩ := mem_numberRows 0 _ h
  rw [List.mem_flatMap] at hp
  obtain ⟨l, hl, hpl⟩ := hp
  rw [List.mem_map] at hl
  obtain ⟨r, hr, rfl⟩ := hl
  exact ⟨r, hr, k, p, hpl, hrow, mem_leftJoinRows_fst hpl⟩

/-- Every row of the time table is fully determined by its start_time
string: each remaining column is an engine function of that string. -/
theorem time_table_rows_determined (logData : List LogRecord) :
    ∀ row ∈ time_table logData, row = timeRowFromString row.start_time := by
  intro row hrow
  simp only [time_table, List.mem_dedup, List.mem_map] at hrow
  obtain ⟨l, ⟨r, _, rfl⟩, rfl⟩ := hrow
  rfl

/-- Filtering on the NextSong page twice is the same as filtering once. -/
theorem nextSongOnly_filter (logData : List LogRecord) :
    nextSongOnly (logData.filter (fun r => r.page == "NextSong")) = nextSongOnly logData := by
  simp [nextSongOnly, List.filter_filter]

/-- C3: for every input dataset, each of the four dimension tables
(songs, artists, users, time) contains no two identical rows. -/
theorem claim_C3_dimension_tables_nodup (songData : List SongRecord) (logData : List LogRecord) :
    (songs_table songData).Nodup ∧ (artists_table songData).Nodup ∧
    (users_table logData).Nodup ∧ (time_table logData).Nodup :=
  ⟨List.nodup_dedup _, List.nodup_dedup _, List.nodup_dedup _, List.nodup_dedup _⟩

/-- C5: every users row originates from a NextSong log event, and the
users, time and songplays tables are unchanged when the input is first
restricted to its NextSong events, so other events contribute nothing. -/
theorem claim_C5_users_from_nextsong (logData : List LogRecord) (songDf : List SongRecord) :
    (∀ u ∈ users_table logData, ∃ r ∈ logData, r.page = "NextSong" ∧ u = userRowOf r) ∧
    users_table logData = users_table (logData.filter (fun r => r.page == "NextSong")) ∧
    time_table logData = time_table (logData.filter (fun r => r.page == "NextSong")) ∧
    songplays_table logData songDf =
      songplays_table (logData.filter (fun r => r.page == "NextSong")) songDf := by
  refine ⟨?_, ?_, ?_, ?_⟩
  · intro u hu
    simp only [users_table, List.mem_dedup, List.mem_map] at hu
    obtain ⟨r, hr, rfl⟩ := hu
    simp only [nextSongOnly, List.mem_filter] at hr
    exact ⟨r, hr.1, by simpa using hr.2, rfl⟩
  · rw [users_table, users_table, nextSongOnly_filter]
  · rw [time_table, time_table, nextSongOnly_filter]
  · rw [songplays_table, songplays_table, nextSongOnly_filter]

/-- C5 witness: the singleton NextSong input produces exactly its user row. -/
theorem claim_C5_witness :
    ∃ r ∈ [sampleNextSong], r.page = "NextSong" ∧
      (⟨"u1", "F", "L", "M", "free"⟩ : UserRow) = userRowOf r :=
  (claim_C5_users_from_nextsong [sampleNextSong] []).1 ⟨"u1", "F", "L", "M", "free"⟩ (by decide)

/-- C6: each output table has exactly the declared column set (songplays
up to column order: the generated and derived columns are appended after
the selected ones). -/
theorem claim_C6_output_column_sets :
    songsColumns = ["song_id", "title", "artist_id", "year", "duration"] ∧
    artistsColumns = ["artist_id", "name", "location", "latitude", "longitude"] ∧
    usersColumns = ["user_id", "first_name", "last_name", "gender", "level"] ∧
    timeColumns = ["start_time", "hour", "day", "week", "month", "year", "weekday"] ∧
    songplaysColumns.Perm
      ["songplay_id", "start_time", "user_id", "level", "song_id",
       "artist_id", "session_id", "location", "user_agent", "year", "month"] := by
  decide

/-- C7: songs is written partitioned by year and artist_id, time and
songplays by year and month, artists and users unpartitioned, each table
to its own distinct directory under the output path. -/
theorem claim_C7_write_partitioning (output_data : String) :
    main_writes output_data =
      [⟨output_data ++ "songs/", ["year", "artist_id"]⟩,
       ⟨output_data ++ "artists/", []⟩,
       ⟨output_data ++ "users/", []⟩,
       ⟨output_data ++ "time/", ["year", "month"]⟩,
       ⟨output_data ++ "songplays/", ["year", "month"]⟩] ∧
    ((main_writes output_data).map WriteCall.path).Nodup := by
  refine ⟨rfl, ?_⟩
  have hpaths : (main_writes output_data).map WriteCall.path =
      (["songs/", "artists/", "users/", "time/", "songplays/"] : List String).map
        (fun b => output_data ++ b) := rfl
  rw [hpaths]
  exact List.Nodup.map (string_append_injective output_data) (by decide)

/-- C8: the job has no error handling: in the straight-line sequence of
read and write steps, the first failure aborts the run, its error reaches
the caller unchanged, later steps never run, and no step is retried (the
executed trace lists each step at most once because the program sequence
is duplicate-free). -/
theorem claim_C8_no_error_handling (outcome : Step → Except String Unit)
    (pre post : List Step) (s : Step) (e : String)
    (hsplit : main_steps = pre ++ s :: post)
    (hok : ∀ t ∈ pre, outcome t = Except.ok ())
    (herr : outcome s = Except.error e) :
    runSteps outcome main_steps = (Except.error e, pre ++ [s]) ∧ main_steps.Nodup := by
  refine ⟨?_, by decide⟩
  rw [hsplit]
  clear hsplit
  induction pre with
  | nil => simp [runSteps, herr]
  | cons t ts ih =>
    have ht : outcome t = Except.ok () := hok t (List.mem_cons_self t ts)
    have ih2 := ih (fun u hu => hok u (List.mem_cons_of_mem t hu))
    simp only [List.cons_append, runSteps, ht, List.append_eq]
    rw [ih2]

/-- C8 witness: a run whose log-data read fails stops there with that
error, after executing exactly the three earlier steps and the failing
read once each. -/
theorem claim_C8_witness :
    runSteps (fun t => if t = Step.readLogData then Except.error ("boom") else Except.ok ())
        main_steps =
      (Except.error ("boom"),
       [Step.readSongData, Step.writeSongsTable, Step.writeArtistsTable, Step.readLogData]) ∧
    main_steps.Nodup :=
  claim_C8_no_error_handling _
    [Step.readSongData, Step.writeSongsTable, Step.writeArtistsTable]
    [Step.writeUsersTable, Step.writeTimeTable, Step.readSongDataForJoin,
     Step.writeSongplaysTable]
    Step.readLogData ("boom") (by decide)
    (by intro t ht; fin_cases ht <;> rfl) rfl

/-- C1 fails as stated: one NextSong event whose artist matches two song
records yields two fact rows, so the fact table row count exceeds the
NextSong event count. -/
theorem claim_C1_counterexample :
    (songplays_table [sampleNextSong] [sampleSongA1, sampleSongA2]).length = 2 ∧
    (nextSongOnly [sampleNextSong]).length = 1 ∧
    (songplays_table [sampleNextSong] [sampleSongA1, sampleSongA2]).length ≠
      (nextSongOnly [sampleNextSong]).length := by
  decide

/-- C1 amended: the fact table row count equals the sum over NextSong log
events of max 1 (number of song records whose artist_name equals the
event artist); it equals the plain NextSong count only when no event
matches more than one song record. -/
theorem claim_C1_songplays_length (logData : List LogRecord) (songDf : List SongRecord) :
    (songplays_table logData songDf).length =
      ((nextSongOnly logData).map
        (fun r => max 1 (matchingSongs (extendLog r) songDf).length)).sum := by
  simp only [songplays_table, length_numberRows, List.length_flatMap, List.map_map,
    Function.comp]
  exact congrArg List.sum
    (List.map_congr_left (fun r _ => leftJoinRows_length (extendLog r) songDf))

/-- C2: the fact table is a left outer join on artist name equality alone:
surrogate ids are pairwise distinct; a NextSong row with no artist-name
match still appears, with null song_id and artist_id and its own log
attributes; and every fact row carries the attributes of a NextSong log
row paired either with nothing (both ids null) or with a song record of
equal artist name whose ids it carries. -/
theorem claim_C2_left_join (logData : List LogRecord) (songDf : List SongRecord) :
    ((songplays_table logData songDf).map SongplayRow.songplay_id).Nodup ∧
    (∀ r ∈ nextSongOnly logData, matchingSongs (extendLog r) songDf = [] →
      ∃ row ∈ songplays_table logData songDf,
        row.start_time = (extendLog r).start_time ∧ row.user_id = r.userId ∧
        row.level = r.level ∧ row.song_id = none ∧ row.artist_id = none ∧
        row.session_id = r.sessionId ∧ row.location = r.location ∧
        row.user_agent = r.userAgent) ∧
    (∀ row ∈ songplays_table logData songDf, ∃ r ∈ nextSongOnly logData,
      row.start_time = (extendLog r).start_time ∧ row.user_id = r.userId ∧
      ((row.song_id = none ∧ row.artist_id = none ∧
          matchingSongs (extendLog r) songDf = []) ∨
       (∃ s ∈ songDf, r.artist = some s.artist_name ∧
          row.song_id = some s.song_id ∧ row.artist_id = some s.artist_id))) := by
  refine ⟨numberRows_ids_nodup 0 _, ?_, ?_⟩
  · intro r hr hm
    have hpair : (extendLog r, (none : Option SongRecord)) ∈
        ((nextSongOnly logData).map extendLog).flatMap (fun l => leftJoinRows l songDf) := by
      rw [List.mem_flatMap]
      refine ⟨extendLog r, List.mem_map_of_mem extendLog hr, ?_⟩
      rw [leftJoinRows, if_pos hm]
      exact List.mem_singleton.mpr rfl
    obtain ⟨k, hk⟩ := numberRows_mem 0 _ hpair
    exact ⟨songplayRowOf k (extendLog r, none), hk, rfl, rfl, rfl, rfl, rfl, rfl, rfl, rfl⟩
  · intro row hrow
    obtain ⟨r, hr, k, p, hp, hrowEq, hfst⟩ := mem_songplays_table logData songDf hrow
    refine ⟨r, hr, ?_⟩
    rw [leftJoinRows] at hp
    by_cases hm : matchingSongs (extendLog r) songDf = []
    · rw [if_pos hm] at hp
      rw [List.mem_singleton] at hp
      subst hp
      subst hrowEq
      exact ⟨rfl, rfl, Or.inl ⟨rfl, rfl, hm⟩⟩
    · rw [if_neg hm] at hp
      rw [List.mem_map] at hp
      obtain ⟨s, hs, hps⟩ := hp
      rw [matchingSongs, List.mem_filter] at hs
      have hartist : r.artist = some s.artist_name := by
        have := hs.2
        simp only [extendLog] at this
        exact beq_iff_eq.mp this
      subst hrowEq
      subst hps
      exact ⟨rfl, rfl, Or.inr ⟨s, hs.1, hartist, rfl, rfl⟩⟩

/-- C2 witness: with no song data at all, the single NextSong event still
produces a fact row with null song_id and artist_id. -/
theorem claim_C2_witness :
    ∃ row ∈ songplays_table [sampleNextSong] [],
      row.start_time = (extendLog sampleNextSong).start_time ∧
      row.user_id = sampleNextSong.userId ∧ row.level = sampleNextSong.level ∧
      row.song_id = none ∧ row.artist_id = none ∧
      row.session_id = sampleNextSong.sessionId ∧
      row.location = sampleNextSong.location ∧
      row.user_agent = sampleNextSong.userAgent :=
  (claim_C2_left_join [sampleNextSong] []).2.1 sampleNextSong (by decide) rfl

/-- C4: for a log record whose epoch-millisecond timestamp lies in the
range the Python datetime library accepts (1970-01-01 up to year 9999),
the derived time row fields are exactly the hour, day of month, week of
year, month, year and day of week of the instant ts/1000 seconds after
the epoch, and start_time is the rendering of that same instant. -/
theorem claim_C4_time_fields (r : LogRecord)
    (h1 : 0 ≤ r.ts) (h2 : r.ts < 253402300800000) :
    timeRowOf (extendLog r) =
      { start_time := formatTS (secondsToDT (r.ts / 1000)),
        hour := some ((secondsToDT (r.ts / 1000)).hour),
        day := some ((secondsToDT (r.ts / 1000)).day),
        week := some (weekOfYear (secondsToDT (r.ts / 1000)).year
          (secondsToDT (r.ts / 1000)).month (secondsToDT (r.ts / 1000)).day),
        month := some ((secondsToDT (r.ts / 1000)).month),
        year := some ((secondsToDT (r.ts / 1000)).year),
        weekday := some (dayOfWeekSun (secondsToDT (r.ts / 1000)).year
          (secondsToDT (r.ts / 1000)).month (secondsToDT (r.ts / 1000)).day) } := by
  obtain ⟨b1, b2, b3, b4, b5, b6, b7, b8, b9, b10, b11, b12⟩ :=
    secondsToDT_bounds (r.ts / 1000) (by omega) (by omega)
  have hrt := parseTS_formatTS (secondsToDT (r.ts / 1000)) (by omega) (by omega)
    (by omega) (by omega) (by omega) (by omega) (by omega) (by omega) (by omega)
    (by omega) (by omega) (by omega)
  simp [timeRowOf, extendLog, get_timestamp, sparkHour, sparkDayofmonth, sparkWeekofyear,
    sparkMonth, sparkYear, sparkDayofweek, hrt]

/-- C4 witness: the sample timestamp 1541121934796 (2018-11-02 01:25:34)
is in range and its time row fields match the instant. -/
theorem claim_C4_witness :
    0 ≤ sampleNextSong.ts ∧ sampleNextSong.ts < 253402300800000 ∧
    timeRowOf (extendLog sampleNextSong) =
      ⟨"2018-11-02 01:25:34", some 1, some 2, some 44, some 11, some 2018, some 6⟩ :=
  ⟨by decide, by decide,
   (claim_C4_time_fields sampleNextSong (by decide) (by decide)).trans (by decide)⟩

/-- C9: every time row and every fact row carries as start_time the full
second-precision rendering of its originating NextSong timestamp,
identical to the derived timestamp column, and the date-only rendering
of `get_datetime` differs from it for every timestamp. -/
theorem claim_C9_start_time_full (logData : List LogRecord) (songDf : List SongRecord) :
    (∀ row ∈ time_table logData, ∃ r ∈ logData, r.page = "NextSong" ∧
        row.start_time = get_timestamp r.ts) ∧
    (∀ row ∈ songplays_table logData songDf, ∃ r ∈ logData, r.page = "NextSong" ∧
        row.start_time = get_timestamp r.ts) ∧
    (∀ r : LogRecord, (extendLog r).start_time = (extendLog r).timestamp) ∧
    (∀ ts : Int, get_timestamp ts ≠ get_datetime ts) := by
  refine ⟨?_, ?_, fun r => rfl, ?_⟩
  · intro row hrow
    simp only [time_table, List.mem_dedup, List.mem_map] at hrow
    obtain ⟨l, ⟨r, hr, rfl⟩, rfl⟩ := hrow
    simp only [nextSongOnly, List.mem_filter] at hr
    exact ⟨r, hr.1, by simpa using hr.2, rfl⟩
  · intro row hrow
    obtain ⟨r, hr, k, p, hp, hrowEq, hfst⟩ := mem_songplays_table logData songDf hrow
    simp only [nextSongOnly, List.mem_filter] at hr
    refine ⟨r, hr.1, by simpa using hr.2, ?_⟩
    subst hrowEq
    show p.1.start_time = get_timestamp r.ts
    rw [hfst]
    rfl
  · intro ts h
    have h2 := congrArg (fun s => s.data.length) h
    simp [get_timestamp, get_datetime, formatTS, formatDate, timeOfDayChars,
      pad2, pad4] at h2

/-- C9 witness: the time row of the sample event carries the full
19-character timestamp string. -/
theorem claim_C9_witness :
    ∃ r ∈ [sampleNextSong], r.page = "NextSong" ∧
      (⟨"2018-11-02 01:25:34", some 1, some 2, some 44, some 11, some 2018,
        some 6⟩ : TimeRow).start_time = get_timestamp r.ts :=
  (claim_C9_start_time_full [sampleNextSong] []).1 _ (by decide)

/-- The guarantee the claim denies for every dimension table, stated for
the time table: its id column start_time is duplicate-free on every input
log dataset. -/
def timeTableIdUnique : Prop :=
  ∀ logData : List LogRecord, ((time_table logData).map TimeRow.start_time).Nodup

/-- C10 fails in full generality: the time dimension table does guarantee
uniqueness of its id column, because every one of its other columns is an
engine function of the start_time string and dedup is over whole rows. -/
theorem claim_C10_counterexample : timeTableIdUnique := by
  intro logData
  refine List.Nodup.map_on ?_ (List.nodup_dedup _)
  intro x hx y hy hxy
  rw [time_table_rows_determined logData x hx, time_table_rows_determined logData y hy, hxy]

/-- C10 amended: row-level dedup does not deduplicate by key for the
users, songs and artists tables: the same user at two levels keeps two
rows with one user_id, and likewise one song_id or artist_id can repeat;
only the time table has a unique id column, since all of its columns are
derived from start_time. -/
theorem claim_C10_row_dedup_not_keys :
    (∃ u1 ∈ users_table [sampleNextSong, sampleNextSongPaid],
      ∃ u2 ∈ users_table [sampleNextSong, sampleNextSongPaid],
        u1 ≠ u2 ∧ u1.user_id = u2.user_id) ∧
    (∃ s1 ∈ songs_table [sampleSongA1, sampleSongA1Title],
      ∃ s2 ∈ songs_table [sampleSongA1, sampleSongA1Title],
        s1 ≠ s2 ∧ s1.song_id = s2.song_id) ∧
    (∃ a1 ∈ artists_table [sampleSongA1, sampleSongA1Loc],
      ∃ a2 ∈ artists_table [sampleSongA1, sampleSongA1Loc],
        a1 ≠ a2 ∧ a1.artist_id = a2.artist_id) := by
  decide

end ETL
